import Mathlib

/-!
Verification development for the `excel` typed-row decoder (package `excel`,
files `excel.go` / `model.go`).

The engine streams worksheet rows through a forward-only cursor
(`excelize.Rows`), compiles declarative `excel:"..."` struct tags into
binding rules, coerces raw cell text into typed struct fields, and exposes
client-driven pagination (`Read` / `Next` with an `IsNext` flag).

Modelling conventions:

* Worksheets are `List (List String)` (rows of cell texts).  The excelize
  cursor is forward-only: `Rows.Next()` advances to the next row and reports
  whether one exists, `Rows.Columns()` returns the current row.  A cursor is
  therefore modelled as the list of not-yet-visited rows; calling `Next`
  pops the head.  This is the dense-sheet semantics of the library iterator.
* Go `reflect` values are modelled by `GoValue`, Go field types by `GoType`,
  `reflect.Kind` by `GoKind`.  `reflect.Value.SetInt` / `SetUint` truncate
  to the destination width without any overflow check, which the model
  reproduces with two-complement wrapping.
* Go standard-library string/number routines used by the source
  (`strings.TrimSpace`, `strings.ToLower`, `strconv.ParseInt`, `ParseUint`,
  `ParseBool`, `ParseFloat`, `time.Parse`) are modelled for the inputs the
  package feeds them: ASCII text, base-10 numerals, and the four time
  layouts named in the source.  Float values are carried as exact scaled
  decimals (`FloatVal`); for every numeric literal appearing in this
  development the corresponding IEEE-754 double computation in Go is
  exact, so no rounding divergence arises on the inputs considered.
* Machine integers that can overflow are modelled as `Nat`/`Int` with
  explicit `% 2^w` wrapping where the source can overflow (`SetInt`).
-/

/-! ### Modelled Go standard-library string helpers -/

/-- White-space test used by `strings.TrimSpace` (ASCII subset; the package
only feeds it cell text). -/
def isGoSpace (c : Char) : Bool :=
  c = ' ' ∨ c = '\t' ∨ c = '\n' ∨ c = '\r' ∨ c = '\x0b' ∨ c = '\x0c'

/-- `strings.TrimSpace` on a character list. -/
def trimSpaceL (l : List Char) : List Char :=
  ((l.dropWhile isGoSpace).reverse.dropWhile isGoSpace).reverse

/-- `strings.TrimSpace`. -/
def trimSpace (s : String) : String :=
  ⟨trimSpaceL s.data⟩

/-- `strings.ToLower` (ASCII; the package only lowercases tag text and
boolean cell literals). -/
def goToLower (s : String) : String :=
  ⟨s.data.map Char.toLower⟩

/-- Decimal digit value of a digit character. -/
def digitVal (c : Char) : Nat := c.toNat - 48

/-- Value of a list of decimal digit characters. -/
def digitsToNat (l : List Char) : Nat :=
  l.foldl (fun a c => a * 10 + digitVal c) 0

/-! ### Modelled `strconv` parsers -/

/-- `strconv.ParseInt(s, 10, 64)`: optional sign, base-10 digits, must fit
in an `int64`.  `none` models a returned error. -/
def goParseInt (s : String) : Option Int :=
  match s.data with
  | [] => none
  | l =>
    let neg : Bool := match l with | '-' :: _ => true | _ => false
    let ds : List Char := match l with
      | '+' :: r => r
      | '-' :: r => r
      | r => r
    if ds = [] ∨ ¬ ds.all Char.isDigit then none
    else
      let n := digitsToNat ds
      if neg then
        if n ≤ 2 ^ 63 then some (-(n : Int)) else none
      else
        if n ≤ 2 ^ 63 - 1 then some (n : Int) else none

/-- `strconv.ParseUint(s, 10, 64)`: no sign permitted, base-10 digits,
must fit in a `uint64`. -/
def goParseUint (s : String) : Option Nat :=
  match s.data with
  | [] => none
  | l =>
    if ¬ l.all Char.isDigit then none
    else
      let n := digitsToNat l
      if n ≤ 2 ^ 64 - 1 then some n else none

/-- `strconv.ParseBool`: accepts exactly
`1 t T TRUE true True` and `0 f F FALSE false False`. -/
def goParseBool (s : String) : Option Bool :=
  match s with
  | "1" | "t" | "T" | "TRUE" | "true" | "True" => some true
  | "0" | "f" | "F" | "FALSE" | "false" | "False" => some false
  | _ => none

/-- Exact value of a parsed floating-point literal, kept as a scaled
decimal: `FloatVal.mk num exp` denotes `num / 10 ^ exp`.  Every literal
the package feeds `strconv.ParseFloat` in this development is exactly
representable as an IEEE-754 double, so the Go value coincides with this
exact denotation. -/
structure FloatVal where
  num : Int
  exp : Nat
deriving Repr, DecidableEq

/-- Rational denotation of a parsed float value (used only in statements,
never in the executable model). -/
def FloatVal.val (f : FloatVal) : ℚ := (f.num : ℚ) / 10 ^ f.exp

/-- Sign prefix handling of `strconv.ParseFloat`. -/
def splitSign (l : List Char) : Int × List Char :=
  match l with
  | c :: r =>
    if c = '+' then (1, r)
    else if c = '-' then (-1, r)
    else (1, c :: r)
  | [] => (1, [])

/-- Exponent suffix of `strconv.ParseFloat` (`e`/`E`, optional sign,
digits). `m` is the already-parsed mantissa. -/
def parseExpPart (m : FloatVal) (l : List Char) : Option FloatVal :=
  let (eneg, l1) : Bool × List Char :=
    match l with
    | '+' :: r => (false, r)
    | '-' :: r => (true, r)
    | r => (false, r)
  if l1 ≠ [] ∧ l1.all Char.isDigit then
    let e := digitsToNat l1
    some (if eneg then ⟨m.num, m.exp + e⟩ else ⟨m.num * 10 ^ e, m.exp⟩)
  else none

/-- `strconv.ParseFloat(s, 64)` on the decimal forms the package feeds it
(sign, integer part, optional fraction, optional exponent; the special
`Inf`/`NaN`/hex spellings never arise from the coercions modelled here).
The result is the exact value of the literal. -/
def goParseFloatL (l : List Char) : Option FloatVal :=
  let (sgn, l1) := splitSign l
  let ip := l1.takeWhile Char.isDigit
  let r1 := l1.dropWhile Char.isDigit
  match r1 with
  | [] => if ip = [] then none else some ⟨sgn * digitsToNat ip, 0⟩
  | '.' :: r2 =>
    let fp := r2.takeWhile Char.isDigit
    let r3 := r2.dropWhile Char.isDigit
    if ip = [] ∧ fp = [] then none
    else
      let mant : FloatVal :=
        ⟨sgn * (digitsToNat ip * 10 ^ fp.length + digitsToNat fp), fp.length⟩
      match r3 with
      | [] => some mant
      | e :: r4 =>
        if e = 'e' ∨ e = 'E' then parseExpPart mant r4 else none
  | e :: r4 =>
    if (e = 'e' ∨ e = 'E') ∧ ip ≠ [] then
      parseExpPart ⟨sgn * digitsToNat ip, 0⟩ r4
    else none

/-- `strconv.ParseFloat(s, 64)`. -/
def goParseFloat (s : String) : Option FloatVal :=
  goParseFloatL s.data

/-- Go conversion `int64(f * 86400.0)` on a parsed float: multiply by
86400 and truncate toward zero (`Int.tdiv` is truncating division). -/
def serialToSec (f : FloatVal) : Int :=
  Int.tdiv (f.num * 86400) (10 ^ f.exp)

/-! ### Column naming utility (`colToIdx` / `idxToCol`, excel.go) -/

/-- ASCII letter test (the "alphabetic character" of the spec). -/
def isAsciiLetter (c : Char) : Bool :=
  (65 ≤ c.toNat ∧ c.toNat ≤ 90) ∨ (97 ≤ c.toNat ∧ c.toNat ≤ 122)

/-- Per-character upper-casing of `strings.ToUpper` (ASCII; `colToIdx`
only ever meets column labels). -/
def goUpperChar (c : Char) : Char :=
  if 97 ≤ c.toNat ∧ c.toNat ≤ 122 then Char.ofNat (c.toNat - 32) else c

/-- Loop body of `colToIdx`: base-26 accumulation with early exit on a
rune outside `A`..`Z` (Go compares runes numerically; `A` is 65 and `Z`
is 90).  Go uses a 64-bit `int` accumulator; every input considered in
this development stays far below its range, so the accumulator is
modelled as an unbounded `Int`. -/
def colToIdxLoop : List Char → Int → Int × Bool
  | [], sum => (sum - 1, true)
  | r :: rest, sum =>
    if 65 ≤ r.toNat ∧ r.toNat ≤ 90 then
      colToIdxLoop rest (sum * 26 + ((r.toNat : Int) - 65 + 1))
    else (0, false)

/-- `colToIdx(col string) (int, bool)`: trims, upper-cases, rejects the
empty result, then base-26 decodes treating `A` as 1. -/
def colToIdx (col : String) : Int × Bool :=
  let c := (trimSpaceL col.data).map goUpperChar
  if c = [] then (0, false) else colToIdxLoop c 0

/-- Digit loop of `idxToCol` on a non-negative index, with a structural
fuel argument (the fuel strictly dominates the decreasing index, so it is
never exhausted when called with fuel `i + 1`). -/
def idxToColAux : Nat → Nat → List Char
  | 0, _ => []
  | fuel + 1, i =>
    let r := Char.ofNat (65 + i % 26)
    if i < 26 then [r]
    else idxToColAux fuel (i / 26 - 1) ++ [r]

/-- Digit loop of `idxToCol` on a non-negative index. -/
def idxToColNat (i : Nat) : List Char :=
  idxToColAux (i + 1) i

/-- `idxToCol(idx int) string`: bijective base-26 label of a 0-based
column index; empty for negative input. -/
def idxToCol (idx : Int) : String :=
  if idx < 0 then "" else ⟨idxToColNat idx.toNat⟩

/-! ### Modelled `time` parsing

Timestamps are represented as integer seconds relative to the spreadsheet
serial epoch 1899-12-30 00:00:00 UTC (the base used by the source).  All
four layouts used by `parseAnyTimeOptimized` denote UTC instants. -/

/-- Gregorian leap-year test. -/
def isLeap (y : Nat) : Bool :=
  (y % 4 = 0 ∧ y % 100 ≠ 0) ∨ y % 400 = 0

/-- Length of a month. -/
def daysInMonth (y m : Nat) : Nat :=
  if m = 2 then (if isLeap y then 29 else 28)
  else if m = 4 ∨ m = 6 ∨ m = 9 ∨ m = 11 then 30
  else 31

/-- Calendar validity as enforced by Go `time.Parse`. -/
def isValidYMD (y m d : Nat) : Bool :=
  1 ≤ m ∧ m ≤ 12 ∧ 1 ≤ d ∧ d ≤ daysInMonth y m

/-- Day number of a civil date (days since 0000-03-01, standard civil
calendar algorithm); only differences of two values are used. -/
def daysSinceCivilBase (y m d : Nat) : Int :=
  let yi : Int := (y : Int)
  let yp : Int := if m ≤ 2 then yi - 1 else yi
  let era : Int := (if 0 ≤ yp then yp else yp - 399) / 400
  let yoe : Int := yp - era * 400
  let mp : Nat := (m + 9) % 12
  let doy : Int := ((153 * mp + 2) / 5 : Nat) + (d : Int) - 1
  let doe : Int := yoe * 365 + yoe / 4 - yoe / 100 + doy
  era * 146097 + doe

/-- Day number of the spreadsheet serial epoch 1899-12-30. -/
def serialBaseDays : Int := daysSinceCivilBase 1899 12 30

/-- Seconds since the serial epoch of midnight UTC on a civil date. -/
def dateToSec (y m d : Nat) : Int :=
  (daysSinceCivilBase y m d - serialBaseDays) * 86400

/-- `time.Parse("2006-01-02", s)` on a character list. -/
def parseDateLayoutL : List Char → Option Int
  | [y1, y2, y3, y4, '-', m1, m2, '-', d1, d2] =>
    if y1.isDigit ∧ y2.isDigit ∧ y3.isDigit ∧ y4.isDigit ∧
       m1.isDigit ∧ m2.isDigit ∧ d1.isDigit ∧ d2.isDigit then
      let y := ((digitVal y1 * 10 + digitVal y2) * 10 + digitVal y3) * 10 + digitVal y4
      let m := digitVal m1 * 10 + digitVal m2
      let d := digitVal d1 * 10 + digitVal d2
      if isValidYMD y m d then some (dateToSec y m d) else none
    else none
  | _ => none

/-- `time.Parse("02/01/2006", s)` on a character list. -/
def parseDMYLayoutL : List Char → Option Int
  | [d1, d2, '/', m1, m2, '/', y1, y2, y3, y4] =>
    if y1.isDigit ∧ y2.isDigit ∧ y3.isDigit ∧ y4.isDigit ∧
       m1.isDigit ∧ m2.isDigit ∧ d1.isDigit ∧ d2.isDigit then
      let y := ((digitVal y1 * 10 + digitVal y2) * 10 + digitVal y3) * 10 + digitVal y4
      let m := digitVal m1 * 10 + digitVal m2
      let d := digitVal d1 * 10 + digitVal d2
      if isValidYMD y m d then some (dateToSec y m d) else none
    else none
  | _ => none

/-- Clock-part validation shared by the two time-of-day layouts. -/
def clockToSec (h1 h2 mi1 mi2 s1 s2 : Char) : Option Int :=
  if h1.isDigit ∧ h2.isDigit ∧ mi1.isDigit ∧ mi2.isDigit ∧ s1.isDigit ∧ s2.isDigit then
    let hh := digitVal h1 * 10 + digitVal h2
    let mm := digitVal mi1 * 10 + digitVal mi2
    let ss := digitVal s1 * 10 + digitVal s2
    if hh ≤ 23 ∧ mm ≤ 59 ∧ ss ≤ 59 then some ((hh * 3600 + mm * 60 + ss : Nat) : Int)
    else none
  else none

/-- `time.Parse("2006-01-02 15:04:05", s)` on a character list. -/
def parseDateTimeLayoutL : List Char → Option Int
  | [y1, y2, y3, y4, '-', m1, m2, '-', d1, d2, ' ',
     h1, h2, ':', mi1, mi2, ':', s1, s2] =>
    match parseDateLayoutL [y1, y2, y3, y4, '-', m1, m2, '-', d1, d2] with
    | none => none
    | some day =>
      match clockToSec h1 h2 mi1 mi2 s1 s2 with
      | none => none
      | some clk => some (day + clk)
  | _ => none

/-- Zone offset of RFC 3339: `Z` or `±HH:MM`. -/
def parseRFC3339Offset (base : Int) : List Char → Option Int
  | ['Z'] => some base
  | [sgn, o1, o2, ':', o3, o4] =>
    if (sgn = '+' ∨ sgn = '-') ∧ o1.isDigit ∧ o2.isDigit ∧ o3.isDigit ∧ o4.isDigit then
      let oh := digitVal o1 * 10 + digitVal o2
      let om := digitVal o3 * 10 + digitVal o4
      if oh ≤ 23 ∧ om ≤ 59 then
        let off : Int := (oh * 3600 + om * 60 : Nat)
        some (if sgn = '+' then base - off else base + off)
      else none
    else none
  | _ => none

/-- Offset suffix of RFC 3339, possibly preceded by a fractional-second
field, which Go accepts on parse and which is truncated here. -/
def parseRFC3339Suffix (base : Int) (l : List Char) : Option Int :=
  match l with
  | '.' :: rest =>
    let fr := rest.takeWhile Char.isDigit
    let r2 := rest.dropWhile Char.isDigit
    if fr = [] then none else parseRFC3339Offset base r2
  | _ => parseRFC3339Offset base l

/-- `time.Parse(time.RFC3339, s)` on a character list. -/
def parseRFC3339L : List Char → Option Int
  | y1 :: y2 :: y3 :: y4 :: '-' :: m1 :: m2 :: '-' :: d1 :: d2 :: 'T' ::
    h1 :: h2 :: ':' :: mi1 :: mi2 :: ':' :: s1 :: s2 :: rest =>
    match parseDateLayoutL [y1, y2, y3, y4, '-', m1, m2, '-', d1, d2] with
    | none => none
    | some day =>
      match clockToSec h1 h2 mi1 mi2 s1 s2 with
      | none => none
      | some clk => parseRFC3339Suffix (day + clk) rest
  | _ => none

/-- The RFC 3339 layout string (`time.RFC3339`). -/
def timeRFC3339 : String := "2006-01-02T15:04:05Z07:00"

/-- `time.Parse(layout, s)` for the four layout strings the package uses.
Layouts other than these are never passed by the modelled code paths and
are mapped to a failing parse. -/
def timeParse (layout s : String) : Option Int :=
  if layout = "2006-01-02" then parseDateLayoutL s.data
  else if layout = "02/01/2006" then parseDMYLayoutL s.data
  else if layout = "2006-01-02 15:04:05" then parseDateTimeLayoutL s.data
  else if layout = timeRFC3339 then parseRFC3339L s.data
  else none

/-- `commonLayouts` of `parseAnyTimeOptimized` (excel.go). -/
def commonLayouts : List String :=
  ["2006-01-02", "02/01/2006", "2006-01-02 15:04:05"]

/-- `defaultTimeLayouts` (model.go). -/
def defaultTimeLayouts : List String :=
  [timeRFC3339, "2006-01-02 15:04:05", "2006-01-02", "02/01/2006"]

/-- First successful parse over a list of layouts. -/
def tryLayouts : List String → String → Option Int
  | [], _ => none
  | l :: ls, s =>
    match timeParse l s with
    | some t => some t
    | none => tryLayouts ls s

/-- `parseAnyTimeOptimized(s, layout)` (excel.go): per-field override
layout, then `commonLayouts`, then `defaultTimeLayouts`, then the
spreadsheet serial fallback `base + int64(f*86400)` seconds with the base
at 1899-12-30 UTC (the representation epoch, so the base term is 0 here).
`none` models the final `cannot parse time` error. -/
def parseAnyTimeOptimized (s layout : String) : Option Int :=
  match (if layout ≠ "" then timeParse layout s else none) with
  | some t => some t
  | none =>
    match tryLayouts commonLayouts s with
    | some t => some t
    | none =>
      match tryLayouts defaultTimeLayouts s with
      | some t => some t
      | none =>
        match goParseFloat s with
        | some f => some (serialToSec f)
        | none => none

/-! ### Reflection model: Go types, kinds and runtime values -/

mutual
/-- Model of a Go field type as used by the decoder. -/
inductive GoType : Type where
  | tString : GoType
  | tBool : GoType
  | tInt : Nat → GoType
  | tUint : Nat → GoType
  | tFloat64 : GoType
  | tTime : GoType
  | tPointer : GoType → GoType
  | tStruct : List StructField → GoType

/-- Model of `reflect.StructField`: name, `excel` tag value, anonymous
(embedded) flag, type. -/
inductive StructField : Type where
  | mk : String → String → Bool → GoType → StructField
end

/-- Field name. -/
def StructField.name : StructField → String
  | .mk n _ _ _ => n

/-- Value of the `excel` struct tag. -/
def StructField.tag : StructField → String
  | .mk _ t _ _ => t

/-- Anonymous (embedded) flag. -/
def StructField.anonymous : StructField → Bool
  | .mk _ _ a _ => a

/-- Field type. -/
def StructField.ty : StructField → GoType
  | .mk _ _ _ t => t

/-- Model of `reflect.Kind` restricted to the kinds the decoder
dispatches on.  Integer kinds carry their width (Go `int`/`uint` are
64-bit on the supported platforms). -/
inductive GoKind : Type where
  | kString : GoKind
  | kBool : GoKind
  | kInt : Nat → GoKind
  | kUint : Nat → GoKind
  | kFloat64 : GoKind
  | kStruct : GoKind
  | kPtr : GoKind

/-- `reflect.Type.Kind()`. -/
def kindOf : GoType → GoKind
  | .tString => .kString
  | .tBool => .kBool
  | .tInt b => .kInt b
  | .tUint b => .kUint b
  | .tFloat64 => .kFloat64
  | .tTime => .kStruct
  | .tStruct _ => .kStruct
  | .tPointer _ => .kPtr

/-- Model of a Go runtime value held in a struct field.  Floats are exact
rationals (see the header note), times are seconds since 1899-12-30 UTC. -/
inductive GoValue : Type where
  | vStr : String → GoValue
  | vBool : Bool → GoValue
  | vInt : Nat → Int → GoValue
  | vUint : Nat → Nat → GoValue
  | vFloat : FloatVal → GoValue
  | vTime : Int → GoValue
  | vPtr : GoValue → GoValue
  | vNil : GoValue
  | vStruct : List GoValue → GoValue

mutual
/-- `reflect.Zero(t)`: the zero value of a type. -/
def zeroValue : GoType → GoValue
  | .tString => .vStr ""
  | .tBool => .vBool false
  | .tInt b => .vInt b 0
  | .tUint b => .vUint b 0
  | .tFloat64 => .vFloat ⟨0, 0⟩
  | .tTime => .vTime 0
  | .tPointer _ => .vNil
  | .tStruct fs => .vStruct (zeroFields fs)

/-- Zero values of a field list (one record reset to all-zero fields). -/
def zeroFields : List StructField → List GoValue
  | [] => []
  | .mk _ _ _ ty :: fs => zeroValue ty :: zeroFields fs
end

/-- Two-complement truncation performed by `reflect.Value.SetInt` when the
destination field is narrower than the parsed `int64`. -/
def wrapSigned (bits : Nat) (i : Int) : Int :=
  let m : Int := 2 ^ bits
  let r := i % m
  if r < 2 ^ (bits - 1) then r else r - m

/-- Truncation performed by `reflect.Value.SetUint`. -/
def wrapUnsigned (bits : Nat) (n : Nat) : Nat := n % 2 ^ bits

/-! ### Tag parser and binding compiler (`parseTag` / `buildRules`) -/

/-- `tagSpec` (excel.go): parsed form of one `excel:"..."` tag. -/
structure tagSpec where
  header : String
  fixedCol : String
  required : Bool
  layout : String
deriving Repr

/-- Split a character list on commas (`strings.Split(s, ",")`). -/
def splitComma (l : List Char) : List (List Char) :=
  match l with
  | [] => [[]]
  | ',' :: rest => [] :: splitComma rest
  | c :: rest =>
    match splitComma rest with
    | [] => [[c]]
    | p :: ps => (c :: p) :: ps

/-- `strings.HasPrefix(strings.ToLower(p), "col=")`. -/
def hasColPrefixLower (p : List Char) : Bool :=
  (p.map Char.toLower).take 4 = ['c', 'o', 'l', '=']

/-- `strings.HasPrefix(opt, "layout=")` (case-sensitive, as in the source). -/
def hasLayoutPrefix (p : List Char) : Bool :=
  p.take 7 = ['l', 'a', 'y', 'o', 'u', 't', '=']

/-- Option-part loop of `parseTag` (`parts[1:]`). -/
def parseTagOpts : List (List Char) → tagSpec → tagSpec
  | [], ts => ts
  | part :: rest, ts =>
    let opt := trimSpaceL part
    let ts' :=
      if opt = ['r', 'e', 'q', 'u', 'i', 'r', 'e', 'd'] then
        { ts with required := true }
      else if hasLayoutPrefix opt then
        { ts with layout := ⟨opt.drop 7⟩ }
      else if hasColPrefixLower opt then
        { ts with fixedCol := ⟨trimSpaceL (opt.drop 4)⟩ }
      else ts
    parseTagOpts rest ts'

/-- `parseTag(s string) tagSpec` (excel.go). -/
def parseTag (s : String) : tagSpec :=
  let parts := splitComma s.data
  let ts : tagSpec := ⟨"", "", false, ""⟩
  let ts :=
    match parts with
    | [] => ts
    | p0 :: _ =>
      let p := trimSpaceL p0
      if hasColPrefixLower p then { ts with fixedCol := ⟨trimSpaceL (p.drop 4)⟩ }
      else if p ≠ [] then { ts with header := ⟨p⟩ }
      else ts
  parseTagOpts (parts.drop 1) ts

/-- `fieldRule` (model.go): one compiled binding rule. -/
structure fieldRule where
  fieldIdx : Nat
  colIdx : Nat
  header : String
  required : Bool
  layout : String
  fieldType : GoType
  isPointer : Bool
  kindCache : GoKind

/-- Header-to-column index table (`colIdxHeader`), an assoc list with Go
map semantics: a later insert of the same key overwrites. -/
def insertRepl : List (String × Nat) → String → Nat → List (String × Nat)
  | [], k, v => [(k, v)]
  | (k0, v0) :: r, k, v =>
    if k0 = k then (k0, v) :: r else (k0, v0) :: insertRepl r k v

/-- Lookup in the header table. -/
def lookupHeader : List (String × Nat) → String → Option Nat
  | [], _ => none
  | (k0, v0) :: r, k => if k0 = k then some v0 else lookupHeader r k

/-- `colIdxHeader` built from the header row: each label is trimmed and
mapped to its 0-based position; later duplicates overwrite earlier ones. -/
def buildHeaderMap (hs : List String) : List (String × Nat) :=
  (List.range hs.length).foldl
    (fun m i => insertRepl m (trimSpace (hs.getD i "")) i) []

mutual
/-- `buildRules(rt, colIndexByHeader)` applied to a (struct) type, as the
source does for the record type and again for each anonymous field; a
non-struct argument would make `rt.NumField()` panic in Go and is mapped
to an error. -/
def buildRulesType : GoType → List (String × Nat) → Except String (List fieldRule)
  | .tStruct fs, hm => buildRulesFields fs 0 hm
  | _, _ => .error "reflect: NumField of non-struct type"

/-- The field loop of `buildRules`, carrying the running field index `i`.
For an anonymous field the source runs `sub, err := buildRules(sf.Type, ...)`
and then `for _, r := range sub { r.fieldIdx = i }` — the loop variable is
a copy, so the assignment has no effect and the spliced rules keep the
field indices of the embedded struct; the model therefore splices `sub`
unchanged, exactly as the compiled Go does. -/
def buildRulesFields : List StructField → Nat → List (String × Nat) →
    Except String (List fieldRule)
  | [], _, _ => .ok []
  | .mk _ tag anon ty :: fs, i, hm =>
      if anon then
        match buildRulesType ty hm with
        | .error e => .error e
        | .ok subRules =>
          match buildRulesFields fs (i + 1) hm with
          | .error e => .error e
          | .ok rest => .ok (subRules ++ rest)
      else if tag = "" ∨ tag = "-" then
        buildRulesFields fs (i + 1) hm
      else
        let spec := parseTag tag
        let colRes : Except String Nat :=
          if spec.fixedCol ≠ "" then
            match colToIdx spec.fixedCol with
            | (ci, true) => .ok ci.toNat
            | (_, false) => .error "invalid column letter"
          else if spec.header ≠ "" then
            match lookupHeader hm spec.header with
            | some ci => .ok ci
            | none => .error "header not found"
          else .error "excel tag must specify header or col"
        match colRes with
        | .error e => .error e
        | .ok colIdx =>
          let fieldType := match ty with | .tPointer el => el | t => t
          let isPointer := match ty with | .tPointer _ => true | _ => false
          match buildRulesFields fs (i + 1) hm with
          | .error e => .error e
          | .ok rest =>
            .ok ({ fieldIdx := i, colIdx := colIdx, header := spec.header,
                   required := spec.required, layout := spec.layout,
                   fieldType := fieldType, isPointer := isPointer,
                   kindCache := kindOf fieldType } :: rest)
end

/-- `buildRules(rt, colIndexByHeader)` (excel.go). -/
def buildRules (rt : GoType) (hm : List (String × Nat)) :
    Except String (List fieldRule) :=
  buildRulesType rt hm

/-- `cleanNumOptimized(s)` (excel.go): removes every space, tab, newline,
carriage return and comma anywhere in the string (the needs-cleaning
pre-scan only avoids an allocation and does not change the result). -/
def cleanNumOptimized (s : String) : String :=
  ⟨s.data.filter fun c =>
    ¬ (c = ' ' ∨ c = '\t' ∨ c = '\n' ∨ c = '\r' ∨ c = ',')⟩

/-! ### Value coercion (`setFieldValueOptimizedDirect` and wrapper) -/

/-- `setFieldValueOptimizedDirect(fv, raw, kind, layout)` (excel.go, the
active revision).  `actualTy` is the runtime type of `fv`; the dispatch
runs on the cached `kind` exactly as in the source.  A reflection panic
(for example `SetString` on a non-string field) is modelled as an error
value, which the `recover` in the calling wrapper turns into a returned
error in Go.  Note the integer cases: `strconv.ParseInt(..., 10, 64)`
followed by an unchecked `fv.SetInt`, which truncates to the destination
width. -/
def setFieldValueOptimizedDirect (actualTy : GoType) (raw : String)
    (kind : GoKind) (layout : String) : Except String GoValue :=
  match kind with
  | .kString =>
    match actualTy with
    | .tString => .ok (.vStr raw)
    | _ => .error "panic in field value setting: SetString on non-string"
  | .kBool =>
    let b? : Option Bool :=
      match raw with
      | "1" | "true" | "TRUE" | "True" | "yes" | "YES" | "Yes" => some true
      | "0" | "false" | "FALSE" | "False" | "no" | "NO" | "No" => some false
      | _ => goParseBool (goToLower raw)
    match b? with
    | none => .error "ParseBool: invalid syntax"
    | some b =>
      match actualTy with
      | .tBool => .ok (.vBool b)
      | _ => .error "panic in field value setting: SetBool on non-bool"
  | .kInt _ =>
    match goParseInt (cleanNumOptimized raw) with
    | none => .error "ParseInt: invalid syntax"
    | some i =>
      match actualTy with
      | .tInt bits => .ok (.vInt bits (wrapSigned bits i))
      | _ => .error "panic in field value setting: SetInt on non-int"
  | .kUint _ =>
    match goParseUint (cleanNumOptimized raw) with
    | none => .error "ParseUint: invalid syntax"
    | some u =>
      match actualTy with
      | .tUint bits => .ok (.vUint bits (wrapUnsigned bits u))
      | _ => .error "panic in field value setting: SetUint on non-uint"
  | .kFloat64 =>
    let cleanRaw := if raw.data.contains ',' then
        ⟨raw.data.map (fun c => if c = ',' then '.' else c)⟩
      else raw
    match goParseFloat cleanRaw with
    | none => .error "ParseFloat: invalid syntax"
    | some fl =>
      match actualTy with
      | .tFloat64 => .ok (.vFloat fl)
      | _ => .error "panic in field value setting: SetFloat on non-float"
  | .kStruct =>
    match actualTy with
    | .tTime =>
      match parseAnyTimeOptimized raw layout with
      | none => .error "cannot parse time"
      | some t => .ok (.vTime t)
    | _ => .error "unsupported struct type"
  | .kPtr => .error "unsupported kind"

/-- `setFieldValueOptimized(fv, cell, rule)` (excel.go): pointer fields
get a freshly allocated holder of the pointee type; other fields are set
directly.  The `recover` that converts reflection panics into errors is
already folded into the error results of the direct setter. -/
def setFieldValueOptimized (actualTy : GoType) (raw : String)
    (rule : fieldRule) : Except String GoValue :=
  if rule.isPointer then
    match setFieldValueOptimizedDirect rule.fieldType raw rule.kindCache rule.layout with
    | .error e => .error ("failed to set pointer field value: " ++ e)
    | .ok v => .ok (.vPtr v)
  else
    setFieldValueOptimizedDirect actualTy raw rule.kindCache rule.layout

/-! ### Row decoding and the paginated cursor controller (`getRows`) -/

/-- Failure of one field rule on one row, before the row number is
attached (the source formats the row number into the error at the same
program point; the split is purely structural). -/
inductive FieldFail : Type where
  | requiredMissing : Nat → String → FieldFail
  | setErr : Nat → String → String → FieldFail
deriving Repr, DecidableEq

/-- A row-level error as surfaced by `getRows`: row number, column letter
and header label, plus the cause for coercion failures. -/
inductive RowError : Type where
  | required : Nat → String → String → RowError
  | fieldFail : Nat → String → String → String → RowError
deriving Repr, DecidableEq

/-- Row number carried by a row-level error. -/
def RowError.rowNum : RowError → Nat
  | .required r _ _ => r
  | .fieldFail r _ _ _ => r

/-- Attach the row number to a field failure, mirroring the two
`fmt.Errorf("row %d col %s (%s) ...")` sites in `getRows`. -/
def mkRowError (rowNum : Nat) : FieldFail → RowError
  | .requiredMissing c h => .required rowNum (idxToCol (c : Int)) h
  | .setErr c h cause => .fieldFail rowNum (idxToCol (c : Int)) h cause

/-- The per-row rule loop of `getRows`: for each rule take the trimmed
cell under the rule's column (empty when the row is short), fail required
rules on empty cells, skip empty optional cells, otherwise set the parent
field selected by `rule.fieldIdx`.  `shape` is the field list of the
record type, used for the runtime type of the addressed field; a
`fieldIdx` outside the shape would be a reflection panic in Go and is
modelled as a failure.  Exported fields are always settable, so the
`fv.CanSet()` guard never skips in the scenarios modelled. -/
def applyRules (shape : List StructField) :
    List fieldRule → List String → List GoValue →
    Except FieldFail (List GoValue)
  | [], _, rec => .ok rec
  | rule :: rest, cols, rec =>
    let cell :=
      match cols.get? rule.colIdx with
      | some x => trimSpace x
      | none => ""
    if rule.required ∧ cell = "" then
      .error (.requiredMissing rule.colIdx rule.header)
    else if cell = "" then
      applyRules shape rest cols rec
    else
      match shape.get? rule.fieldIdx with
      | none => .error (.setErr rule.colIdx rule.header "reflect: field index out of range")
      | some sf =>
        match setFieldValueOptimized sf.ty cell rule with
        | .error cause => .error (.setErr rule.colIdx rule.header cause)
        | .ok v => applyRules shape rest cols (rec.set rule.fieldIdx v)

/-- Decoding of one row: a fresh record reset to zero values
(`rv.Set(reflect.Zero(e.rt))`), then the rule loop. -/
def decodeRow (shape : List StructField) (rules : List fieldRule)
    (cols : List String) : Except FieldFail (List GoValue) :=
  applyRules shape rules cols (zeroFields shape)

/-- The `for e.rows.Next()` loop of `getRows`: consumes cursor rows,
decodes each into a fresh zeroed record, appends to `out`, and breaks
when the page limit is reached.  Returns the remaining cursor rows, the
output slice and the row-level error, if any. -/
def getRowsLoop (shape : List StructField) (rules : List fieldRule)
    (dataStartRow limit : Nat) :
    List (List String) → Nat → List (List GoValue) →
    List (List String) × List (List GoValue) × Option RowError
  | [], _, out => ([], out, none)
  | cols :: restRows, numberData, out =>
    let nd := numberData + 1
    let rowNum := nd + dataStartRow - 1
    match decodeRow shape rules cols with
    | .error f => (restRows, out, some (mkRowError rowNum f))
    | .ok rec =>
      let out2 := out ++ [rec]
      if limit > 0 ∧ nd ≥ limit then (restRows, out2, none)
      else getRowsLoop shape rules dataStartRow limit restRows nd out2

/-- One read session (`Excel[T]` state relevant to row streaming):
remaining cursor rows, the `IsNext` flag, the record shape, the compiled
rules and the resolved options. -/
structure Sess where
  remaining : List (List String)
  isNext : Bool
  shape : List StructField
  rules : List fieldRule
  dataStartRow : Nat
  limit : Nat

/-- `getRows(out)` (excel.go).  On a row-level error the method returns
immediately: the cursor rests just past the failing row and `IsNext` is
left unchanged.  After a complete page the source runs
`e.IsNext = e.rows.Next()` — a cursor **advance**, not a peek: it
consumes the row after the page (if any), whose data is never decoded. -/
def getRows (s : Sess) (out : List (List GoValue)) :
    Sess × List (List GoValue) × Option RowError :=
  match getRowsLoop s.shape s.rules s.dataStartRow s.limit s.remaining 0 out with
  | (restRows, out2, some e) => ({ s with remaining := restRows }, out2, some e)
  | (restRows, out2, none) =>
    ({ s with remaining := restRows.tail, isNext := !restRows.isEmpty }, out2, none)

/-- `Next(out)` (excel.go): continuation call, valid only while `IsNext`
holds; otherwise the `no next row` error. -/
def NextM (s : Sess) (out : List (List GoValue)) :
    Except String (Sess × List (List GoValue) × Option RowError) :=
  if s.isNext then .ok (getRows s out) else .error "no next row"

/-- `Read(out, sheetName, opts...)` (excel.go) for an already-resolved
option set (`headerRow ≥ 1`, `dataStartRow`, `limit`; the option-merging
loop only substitutes defaults).  Advances the cursor `headerRow` times
(failing `empty sheet` if the sheet is shorter), reads the header row,
builds the header table, compiles the rules and produces the first page.
The source never skips rows between the header row and `dataStartRow`;
data consumption starts right after the header row, and `dataStartRow`
only enters the reported row numbers. -/
def ReadM (rt : GoType) (sheet : List (List String))
    (headerRow dataStartRow limit : Nat) :
    Except String (Sess × List (List GoValue) × Option RowError) :=
  match headerRow with
  | 0 => .error "header row must be positive"
  | hr + 1 =>
    if sheet.length ≤ hr then .error "empty sheet"
    else
      let header := sheet.getD hr []
      let hm := buildHeaderMap header
      match buildRules rt hm with
      | .error e => .error e
      | .ok rules =>
        let shape := match rt with | .tStruct fs => fs | _ => []
        let s : Sess :=
          { remaining := sheet.drop (hr + 1), isNext := false, shape := shape,
            rules := rules, dataStartRow := dataStartRow, limit := limit }
        .ok (getRows s [])

/-! ## Claim C1 — pagination over a 5-data-row sheet with limit 2

Concrete session: header row `["A"]`, data rows `1..5`, one integer
field bound to header `A`, `limit = 2`. -/

/-- Record shape for the C1 scenario: one `int64` field bound to header
`A`. -/
def c1Shape : GoType := .tStruct [.mk "V" "A" false (.tInt 64)]

/-- Sheet for the C1 scenario: header plus five data rows. -/
def c1Sheet : List (List String) := [["A"], ["1"], ["2"], ["3"], ["4"], ["5"]]

/-- First page: `Read` with default header/data rows and limit 2. -/
def c1Read : Except String (Sess × List (List GoValue) × Option RowError) :=
  ReadM c1Shape c1Sheet 1 2 2

/-- Session state after the first page. -/
def c1Sess1 : Sess :=
  match c1Read with
  | .ok (s, _, _) => s
  | .error _ => ⟨[], false, [], [], 0, 0⟩

/-- Second page: the first `Next` call. -/
def c1Next1 : Except String (Sess × List (List GoValue) × Option RowError) :=
  NextM c1Sess1 []

/-- Session state after the second page. -/
def c1Sess2 : Sess :=
  match c1Next1 with
  | .ok (s, _, _) => s
  | .error _ => ⟨[], false, [], [], 0, 0⟩

/-- Claim C1: the spec requires pages of 2, 2 and 1 records with
`IsNext = true, true, false` and the `hasMore` probe not consuming a data
row.  The code violates this: `e.IsNext = e.rows.Next()` advances the
forward-only cursor, so the data row after each full page (here row
`["3"]`) is consumed without ever being decoded.  The concrete session
evaluates to: first page `[1, 2]` with `IsNext = true` but with row
`["3"]` already consumed (`remaining = [["4"], ["5"]]`); the first `Next`
returns `[4, 5]` — not `[3, 4]` — with `IsNext = false`; and already the
second `Next` (not the third) fails with the `no next row` error.  The
third data row is silently lost. -/
theorem c1_pagination_consumes_row_between_pages :
    c1Read = .ok (c1Sess1, [[.vInt 64 1], [.vInt 64 2]], none)
    ∧ c1Sess1.isNext = true
    ∧ c1Sess1.remaining = [["4"], ["5"]]
    ∧ c1Next1 = .ok (c1Sess2, [[.vInt 64 4], [.vInt 64 5]], none)
    ∧ c1Sess2.isNext = false
    ∧ NextM c1Sess2 [] = .error "no next row" :=
  ⟨rfl, rfl, rfl, rfl, rfl, rfl⟩

/-! ## Claim C2 — required-field error: row number and column letter -/

/-- Record shape for the C2 scenarios: one required string field bound to
header `A`. -/
def c2Shape : GoType := .tStruct [.mk "A" "A,required" false .tString]

/-- Sheet for the C2 counterexample: the required cell is empty in sheet
row 4 (data row 3). -/
def c2Sheet : List (List String) := [["A"], ["r1"], ["r2"], [""], ["r4"]]

/-- `Read` with limit 1 over the C2 sheet. -/
def c2Read : Except String (Sess × List (List GoValue) × Option RowError) :=
  ReadM c2Shape c2Sheet 1 2 1

/-- Session state after the first C2 page. -/
def c2Sess1 : Sess :=
  match c2Read with
  | .ok (s, _, _) => s
  | .error _ => ⟨[], false, [], [], 0, 0⟩

/-- Counterexample to claim C2 as stated: the row whose required cell is
empty is sheet row 4 (`c2Sheet.getD 3`), but the error produced on the
continuation page names row 2 — the per-page row counter restarts on
every `getRows` call, so on pages after the first the reported number is
not the sheet row of the failing cell.  (The failing row is reached as
the first row of the second page because the `IsNext` probe consumed
`["r2"]`.) -/
theorem c2_counterexample :
    c2Read = .ok (c2Sess1, [[.vStr "r1"]], none)
    ∧ NextM c2Sess1 [] =
        .ok ({ c2Sess1 with remaining := [["r4"]] }, [],
             some (.required 2 "A" "A"))
    ∧ c2Sheet.getD 3 [] = [""]
    ∧ (2 : Nat) ≠ 4 :=
  ⟨rfl, rfl, rfl, by decide⟩

/-! ## Claim C3 — float coercion and the header/data round-trip -/

/-- Record shape of the spec round-trip: integer `ID`, string `Name`,
float `Amount`. -/
def c3Shape : GoType :=
  .tStruct [.mk "ID" "ID" false (.tInt 64), .mk "Name" "Name" false .tString,
            .mk "Amount" "Amount" false .tFloat64]

/-- The spec round-trip sheet. -/
def c3Sheet : List (List String) :=
  [["ID", "Name", "Amount"], ["1", "Alice", "1,234.50"], ["2", "Bob", "900"]]

/-- Full decode of the round-trip sheet. -/
def c3Read : Except String (Sess × List (List GoValue) × Option RowError) :=
  ReadM c3Shape c3Sheet 1 2 0

/-- Session state after the failed C3 page. -/
def c3SessEnd : Sess :=
  match c3Read with
  | .ok (s, _, _) => s
  | .error _ => ⟨[], false, [], [], 0, 0⟩

/-- Counterexample to claim C3 as stated: decoding the spec round-trip
sheet does not yield the records `{1, "Alice", 1234.50}` and
`{2, "Bob", 900.0}` — it yields no record at all.  Float coercion
replaces every comma by a point, so `"1,234.50"` becomes `"1.234.50"`,
which is malformed; the page aborts at sheet row 2, column `C`
(`Amount`) with a parse error. -/
theorem c3_counterexample :
    c3Read = .ok (c3SessEnd, [],
      some (.fieldFail 2 "C" "Amount" "ParseFloat: invalid syntax")) :=
  rfl

/-- Claim C3 amended: float coercion replaces every comma in the raw text
with a decimal point and then parses, so `"1,5"` decodes to `1.5` and
`"900"` to `900.0`; any text malformed after the replacement is a parse
error — in particular `"1,234.50"` (which becomes `"1.234.50"`), so the
spec round-trip sheet aborts at row 2 column `C` with a `ParseError`
instead of producing the two records. -/
theorem c3_float_comma_replacement :
    setFieldValueOptimizedDirect .tFloat64 "1,5" .kFloat64 "" = .ok (.vFloat ⟨15, 1⟩)
    ∧ FloatVal.val ⟨15, 1⟩ = 3 / 2
    ∧ setFieldValueOptimizedDirect .tFloat64 "900" .kFloat64 "" = .ok (.vFloat ⟨900, 0⟩)
    ∧ FloatVal.val ⟨900, 0⟩ = 900
    ∧ setFieldValueOptimizedDirect .tFloat64 "1,234.50" .kFloat64 "" =
        .error "ParseFloat: invalid syntax"
    ∧ c3Read = .ok (c3SessEnd, [],
        some (.fieldFail 2 "C" "Amount" "ParseFloat: invalid syntax")) :=
  ⟨rfl, by norm_num [FloatVal.val], rfl, by norm_num [FloatVal.val], rfl, rfl⟩

/-! ## Claim C4 — boolean coercion -/

/-- Counterexample to claim C4 as stated: `yes`/`no` are not accepted
case-insensitively — `"yEs"` lowercases to `"yes"`, which
`strconv.ParseBool` rejects, so it is an error; and not every other
non-empty input is a parse error — `"t"` is accepted as `true` by the
`ParseBool` fallback. -/
theorem c4_counterexample :
    setFieldValueOptimizedDirect .tBool "yEs" .kBool "" =
      .error "ParseBool: invalid syntax"
    ∧ setFieldValueOptimizedDirect .tBool "t" .kBool "" = .ok (.vBool true) :=
  ⟨rfl, rfl⟩

/-- Claim C4 amended: `"1"` maps to `true` and `"0"` to `false`;
`true`/`false` are accepted case-insensitively (and so are the
single-letter forms `t`/`f`, via the `strconv.ParseBool` fallback on the
lowercased text); `yes`/`no` are accepted only in the exact spellings
`yes/Yes/YES` and `no/No/NO`; all other non-empty inputs — including
`"maybe"`, `"yEs"`, `"nO"` and `"2"` — are parse errors. -/
theorem c4_boolean_coercion_table :
    setFieldValueOptimizedDirect .tBool "1" .kBool "" = .ok (.vBool true)
    ∧ setFieldValueOptimizedDirect .tBool "true" .kBool "" = .ok (.vBool true)
    ∧ setFieldValueOptimizedDirect .tBool "TRUE" .kBool "" = .ok (.vBool true)
    ∧ setFieldValueOptimizedDirect .tBool "tRuE" .kBool "" = .ok (.vBool true)
    ∧ setFieldValueOptimizedDirect .tBool "t" .kBool "" = .ok (.vBool true)
    ∧ setFieldValueOptimizedDirect .tBool "yes" .kBool "" = .ok (.vBool true)
    ∧ setFieldValueOptimizedDirect .tBool "YES" .kBool "" = .ok (.vBool true)
    ∧ setFieldValueOptimizedDirect .tBool "Yes" .kBool "" = .ok (.vBool true)
    ∧ setFieldValueOptimizedDirect .tBool "0" .kBool "" = .ok (.vBool false)
    ∧ setFieldValueOptimizedDirect .tBool "false" .kBool "" = .ok (.vBool false)
    ∧ setFieldValueOptimizedDirect .tBool "FALSE" .kBool "" = .ok (.vBool false)
    ∧ setFieldValueOptimizedDirect .tBool "fAlSe" .kBool "" = .ok (.vBool false)
    ∧ setFieldValueOptimizedDirect .tBool "F" .kBool "" = .ok (.vBool false)
    ∧ setFieldValueOptimizedDirect .tBool "no" .kBool "" = .ok (.vBool false)
    ∧ setFieldValueOptimizedDirect .tBool "NO" .kBool "" = .ok (.vBool false)
    ∧ setFieldValueOptimizedDirect .tBool "No" .kBool "" = .ok (.vBool false)
    ∧ setFieldValueOptimizedDirect .tBool "maybe" .kBool "" =
        .error "ParseBool: invalid syntax"
    ∧ setFieldValueOptimizedDirect .tBool "yEs" .kBool "" =
        .error "ParseBool: invalid syntax"
    ∧ setFieldValueOptimizedDirect .tBool "nO" .kBool "" =
        .error "ParseBool: invalid syntax"
    ∧ setFieldValueOptimizedDirect .tBool "2" .kBool "" =
        .error "ParseBool: invalid syntax" :=
  ⟨rfl, rfl, rfl, rfl, rfl, rfl, rfl, rfl, rfl, rfl,
   rfl, rfl, rfl, rfl, rfl, rfl, rfl, rfl, rfl, rfl⟩

/-! ## Claim C6 — integer coercion and overflow -/

/-- Claim C6: the claim requires width overflow to be a `ParseError`.
The active coercion path parses with `strconv.ParseInt(..., 10, 64)` and
then calls `reflect.Value.SetInt` without any overflow check, and
`SetInt` truncates to the destination width: `"300"` stored into an
8-bit signed field silently becomes `44` (`300 mod 256`) instead of
failing.  The other parts of the claim hold: commas and whitespace are
stripped before parsing (indeed all interior whitespace, not only
surrounding), a negative text fed to an unsigned field is an error, and
a value beyond the 64-bit range is an error. -/
theorem c6_int_overflow_wraps_silently :
    cleanNumOptimized " 1,234 " = "1234"
    ∧ goParseInt (cleanNumOptimized "1,234") = some 1234
    ∧ setFieldValueOptimizedDirect (.tInt 8) "300" (.kInt 8) "" = .ok (.vInt 8 44)
    ∧ setFieldValueOptimizedDirect (.tUint 8) "-5" (.kUint 8) "" =
        .error "ParseUint: invalid syntax"
    ∧ setFieldValueOptimizedDirect (.tInt 64) "99999999999999999999" (.kInt 64) "" =
        .error "ParseInt: invalid syntax" :=
  ⟨rfl, rfl, rfl, rfl, rfl⟩

/-! ## Claim C8 — embedded struct flattening -/

/-- Parent shape for the C8 scenario: a bound leaf field `X` at index 0,
then an anonymous embedded struct `Inner` at index 1 whose own field `A`
(index 0 inside `Inner`) is bound to header `a`. -/
def c8Shape : GoType :=
  .tStruct [.mk "X" "x" false (.tInt 64),
            .mk "Inner" "" true (.tStruct [.mk "A" "a" false .tString])]

/-- Sheet for the C8 scenario. -/
def c8Sheet : List (List String) := [["x", "a"], ["5", "hello"]]

/-- The rule compiled for the parent leaf field `X`. -/
def c8RuleX : fieldRule :=
  { fieldIdx := 0, colIdx := 0, header := "x", required := false, layout := "",
    fieldType := .tInt 64, isPointer := false, kindCache := .kInt 64 }

/-- The rule spliced in for the embedded field `Inner.A`: its `fieldIdx`
is still 0, the index of `A` inside `Inner`, because the
`r.fieldIdx = i` fixup in the source mutates a range-loop copy. -/
def c8RuleA : fieldRule :=
  { fieldIdx := 0, colIdx := 1, header := "a", required := false, layout := "",
    fieldType := .tString, isPointer := false, kindCache := .kString }

/-- Decode of the C8 sheet. -/
def c8Read : Except String (Sess × List (List GoValue) × Option RowError) :=
  ReadM c8Shape c8Sheet 1 2 0

/-- Session state after the failed C8 page. -/
def c8SessEnd : Sess :=
  match c8Read with
  | .ok (s, _, _) => s
  | .error _ => ⟨[], false, [], [], 0, 0⟩

/-- Claim C8: the binding compiler does recursively compile the embedded
shape against the same header index and splices its rules in order
(`buildRules` returns `[c8RuleX, c8RuleA]`), but the spliced rule still
carries the embedded-struct-relative index 0, which `getRows` resolves
against the **parent** record: field 0 of the parent is the `int64`
leaf `X`, not `Inner.A`.  Decoding therefore does not land the value in
the embedded struct: `SetString` hits the `int64` field, the recovered
reflection panic aborts the page, and no record is produced.  This
matches the defect admitted by the source comment
(`not correct for embedded; do deep set instead if needed`). -/
theorem c8_embedded_rules_misattributed :
    buildRules c8Shape (buildHeaderMap ["x", "a"]) = .ok [c8RuleX, c8RuleA]
    ∧ c8RuleA.fieldIdx = 0
    ∧ (match c8Shape with
       | .tStruct fs => (fs.getD 0 (.mk "" "" false .tString)).name
       | _ => "") = "X"
    ∧ c8Read = .ok (c8SessEnd, [],
        some (.fieldFail 2 "B" "a"
          "panic in field value setting: SetString on non-string")) :=
  ⟨rfl, rfl, rfl, rfl⟩

/-! ## Page behaviour lemmas shared by claims about `getRows` -/

/-- Decode a list of rows, succeeding only if every row decodes. -/
def decodeAll (shape : List StructField) (rules : List fieldRule) :
    List (List String) → Option (List (List GoValue))
  | [] => some []
  | r :: rs =>
    match decodeRow shape rules r with
    | .error _ => none
    | .ok v =>
      match decodeAll shape rules rs with
      | none => none
      | some vs => some (v :: vs)

/-- A successful prefix decode yields one record per row. -/
theorem decodeAll_length (shape : List StructField) (rules : List fieldRule) :
    ∀ (rows : List (List String)) (recs : List (List GoValue)),
      decodeAll shape rules rows = some recs → recs.length = rows.length := by
  intro rows
  induction rows with
  | nil =>
    intro recs h
    simp only [decodeAll, Option.some.injEq] at h
    simp [← h]
  | cons r rs ih =>
    intro recs h
    simp only [decodeAll] at h
    cases hr : decodeRow shape rules r with
    | error e => rw [hr] at h; simp at h
    | ok v =>
      rw [hr] at h
      cases hrest : decodeAll shape rules rs with
      | none => rw [hrest] at h; simp at h
      | some vs =>
        rw [hrest] at h
        simp only [Option.some.injEq] at h
        subst h
        simp [ih vs hrest]

/-- Behaviour of the `getRows` loop on a page whose rows decode cleanly
up to a failing row: every earlier row appends exactly its record, the
loop stops at the failing row (leaving the cursor just past it), no
record is appended for it, and the reported row number is the failing
row's 1-based position in this page (`front.length + 1`) plus
`dataStartRow - 1` — independent of anything consumed by earlier pages. -/
theorem getRowsLoop_front_then_fail (shape : List StructField)
    (rules : List fieldRule) (dataStart limit : Nat) :
    ∀ (front : List (List String)) (recs : List (List GoValue))
      (bad : List String) (rest : List (List String)) (nd : Nat)
      (out : List (List GoValue)) (f : FieldFail),
      decodeAll shape rules front = some recs →
      (limit = 0 ∨ nd + front.length < limit) →
      decodeRow shape rules bad = .error f →
      getRowsLoop shape rules dataStart limit (front ++ bad :: rest) nd out =
        (rest, out ++ recs, some (mkRowError (nd + front.length + dataStart) f)) := by
  intro front
  induction front with
  | nil =>
    intro recs bad rest nd out f hall hlim hbad
    simp only [decodeAll, Option.some.injEq] at hall
    subst hall
    simp only [List.nil_append, getRowsLoop, hbad, List.append_nil,
      List.length_nil]
    have h1 : nd + 1 + dataStart - 1 = nd + 0 + dataStart := by omega
    rw [h1]
  | cons r front ih =>
    intro recs bad rest nd out f hall hlim hbad
    simp only [decodeAll] at hall
    cases hr : decodeRow shape rules r with
    | error e => rw [hr] at hall; simp at hall
    | ok v =>
      rw [hr] at hall
      cases hrest : decodeAll shape rules front with
      | none => rw [hrest] at hall; simp at hall
      | some vs =>
        rw [hrest] at hall
        simp only [Option.some.injEq] at hall
        subst hall
        simp only [List.length_cons] at hlim
        have hnb : ¬ (limit > 0 ∧ nd + 1 ≥ limit) := by omega
        have hlim2 : limit = 0 ∨ (nd + 1) + front.length < limit := by omega
        simp only [List.cons_append, getRowsLoop, hr]
        rw [if_neg hnb]
        simp only [List.append_eq]
        rw [ih vs bad rest (nd + 1) (out ++ [v]) f hrest hlim2 hbad]
        have h1 : nd + 1 + front.length + dataStart =
            nd + (front.length + 1) + dataStart := by omega
        rw [h1, List.append_assoc]
        simp [List.singleton_append]

/-- Row number attached by `mkRowError`. -/
theorem mkRowError_rowNum (k : Nat) (f : FieldFail) :
    (mkRowError k f).rowNum = k := by
  cases f <;> rfl

/-- Claim C2 amended: when a page reaches a row whose cell at a required
binding's column is empty (or lies beyond the row's cells), `getRows`
stops at that row with a required-field error that names the binding's
column letter and header, and reports as row number the row's 1-based
position within the **current page** plus `dataStartRow - 1` (for the
first page under the default options this equals the sheet row; on
continuation pages it does not, because the per-page counter restarts).
The records of the earlier rows of the page are kept and no record is
produced for the failing row. -/
theorem c2_required_error_page_relative :
    ∀ (s : Sess) (out recs : List (List GoValue)) (front : List (List String))
      (bad : List String) (rest : List (List String)) (c : Nat) (hdr : String),
      s.remaining = front ++ bad :: rest →
      decodeAll s.shape s.rules front = some recs →
      (s.limit = 0 ∨ front.length < s.limit) →
      decodeRow s.shape s.rules bad = .error (.requiredMissing c hdr) →
      getRows s out =
        ({ s with remaining := rest }, out ++ recs,
         some (.required (front.length + s.dataStartRow) (idxToCol (c : Int)) hdr)) := by
  intro s out recs front bad rest c hdr hrem hall hlim hbad
  have hlim0 : s.limit = 0 ∨ 0 + front.length < s.limit := by omega
  unfold getRows
  rw [hrem, getRowsLoop_front_then_fail s.shape s.rules s.dataStartRow s.limit
    front recs bad rest 0 out _ hall hlim0 hbad]
  simp [mkRowError]

/-- Shape of the C2 witness scenario. -/
def c2wShape : List StructField := [.mk "A" "A,required" false .tString]

/-- Compiled rule of the C2 witness scenario. -/
def c2wRules : List fieldRule :=
  [{ fieldIdx := 0, colIdx := 0, header := "A", required := true, layout := "",
     fieldType := .tString, isPointer := false, kindCache := .kString }]

/-- Session of the C2 witness scenario: a continuation page (`isNext`
already true, one record from an earlier page in `out`) whose first row
has the required cell empty. -/
def c2wSess : Sess := ⟨[[""], ["zz"]], true, c2wShape, c2wRules, 2, 5⟩

/-- Witness for the amended C2 theorem at a concrete continuation page:
the error names row 2 (position 1 in this page plus the default
`dataStartRow - 1`), column `A`, and the pre-existing record is kept. -/
theorem c2_required_error_page_relative_witness :
    getRows c2wSess [[.vStr "prev"]] =
      ({ c2wSess with remaining := [["zz"]] }, [[.vStr "prev"]],
       some (.required 2 "A" "A")) := by
  exact c2_required_error_page_relative c2wSess [[.vStr "prev"]] [] [] [""]
    [["zz"]] 0 "A" rfl rfl (Or.inr (by decide)) rfl

/-- Claim C9: when a page aborts on a row-level failure (required field
or coercion error), the records decoded from the earlier rows of that
same page have already been appended to the caller's slice and stay
there — the output is exactly the input slice extended by one record per
successfully decoded earlier row, with nothing appended for the failing
row and no rollback. -/
theorem c9_error_page_keeps_earlier_records :
    ∀ (s : Sess) (out recs : List (List GoValue)) (front : List (List String))
      (bad : List String) (rest : List (List String)) (f : FieldFail),
      s.remaining = front ++ bad :: rest →
      decodeAll s.shape s.rules front = some recs →
      (s.limit = 0 ∨ front.length < s.limit) →
      decodeRow s.shape s.rules bad = .error f →
      (getRows s out).2.1 = out ++ recs
      ∧ (getRows s out).2.2 =
          some (mkRowError (front.length + s.dataStartRow) f)
      ∧ recs.length = front.length := by
  intro s out recs front bad rest f hrem hall hlim hbad
  have hlim0 : s.limit = 0 ∨ 0 + front.length < s.limit := by omega
  have hloop := getRowsLoop_front_then_fail s.shape s.rules s.dataStartRow
    s.limit front recs bad rest 0 out f hall hlim0 hbad
  unfold getRows
  rw [hrem, hloop]
  refine ⟨rfl, by simp, decodeAll_length s.shape s.rules front recs hall⟩

/-- Shape of the C9 witness scenario. -/
def c9wShape : List StructField := [.mk "V" "A" false (.tInt 64)]

/-- Compiled rule of the C9 witness scenario. -/
def c9wRules : List fieldRule :=
  [{ fieldIdx := 0, colIdx := 0, header := "A", required := false, layout := "",
     fieldType := .tInt 64, isPointer := false, kindCache := .kInt 64 }]

/-- Session of the C9 witness scenario: row `["7"]` decodes, then
`["abc"]` fails integer coercion. -/
def c9wSess : Sess := ⟨[["7"], ["abc"]], false, c9wShape, c9wRules, 2, 0⟩

/-- Witness for C9: the record decoded from `["7"]` is kept in the
output slice when the page aborts on `["abc"]`. -/
theorem c9_error_page_keeps_earlier_records_witness :
    (getRows c9wSess []).2.1 = [[.vInt 64 7]]
    ∧ (getRows c9wSess []).2.2 =
        some (.fieldFail 3 "A" "A" "ParseInt: invalid syntax")
    ∧ (1 : Nat) = 1 := by
  exact c9_error_page_keeps_earlier_records c9wSess [] [[.vInt 64 7]] [["7"]]
    ["abc"] [] (.setErr 0 "A" "ParseInt: invalid syntax") rfl rfl (Or.inl rfl) rfl

/-- Claim C10: in every page produced by `Read` or by a `Next`
continuation, the row number reported by a row-level error equals the
failing row's 1-based position within the current page plus
`dataStartRow - 1`.  The session `s` is arbitrary — in particular its
cursor may already have been advanced by any number of earlier pages —
and the formula does not involve that history: the per-page counter
restarts at zero on each call. -/
theorem c10_row_numbers_page_relative :
    ∀ (s : Sess) (out recs : List (List GoValue)) (front : List (List String))
      (bad : List String) (rest : List (List String)) (f : FieldFail),
      s.remaining = front ++ bad :: rest →
      decodeAll s.shape s.rules front = some recs →
      (s.limit = 0 ∨ front.length < s.limit) →
      decodeRow s.shape s.rules bad = .error f →
      ((getRows s out).2.2).map RowError.rowNum =
        some (front.length + 1 + s.dataStartRow - 1) := by
  intro s out recs front bad rest f hrem hall hlim hbad
  have hlim0 : s.limit = 0 ∨ 0 + front.length < s.limit := by omega
  have hloop := getRowsLoop_front_then_fail s.shape s.rules s.dataStartRow
    s.limit front recs bad rest 0 out f hall hlim0 hbad
  unfold getRows
  rw [hrem, hloop]
  simp [mkRowError_rowNum]

/-- Shape of the C10 witness scenario. -/
def c10wShape : List StructField := [.mk "B" "B" false .tBool]

/-- Compiled rule of the C10 witness scenario. -/
def c10wRules : List fieldRule :=
  [{ fieldIdx := 0, colIdx := 0, header := "B", required := false, layout := "",
     fieldType := .tBool, isPointer := false, kindCache := .kBool }]

/-- Session of the C10 witness scenario: mid-session (`isNext` true, one
record already in the output), two clean rows then a failing one. -/
def c10wSess : Sess := ⟨[["1"], ["0"], ["xx"], ["1"]], true, c10wShape, c10wRules, 2, 0⟩

/-- Witness for C10: the failing row sits at position 3 of this page, so
with `dataStartRow = 2` the reported row number is 4 — regardless of the
record already present from earlier pages. -/
theorem c10_row_numbers_page_relative_witness :
    ((getRows c10wSess [[.vBool true]]).2.2).map RowError.rowNum = some 4 := by
  exact c10_row_numbers_page_relative c10wSess [[.vBool true]]
    [[.vBool true], [.vBool false]] [["1"], ["0"]] ["xx"] [["1"]]
    (.setErr 0 "B" "ParseBool: invalid syntax") rfl rfl (Or.inl rfl) rfl

/-! ## Claim C7 — column naming utility -/

/-- Counterexample to claim C7 as stated: `colToIdx` trims surrounding
whitespace before validating, so the input `"A "` — which contains the
non-alphabetic character `' '` — is accepted as column 0 rather than
rejected. -/
theorem c7_counterexample :
    (' ' ∈ "A ".data ∧ isAsciiLetter ' ' = false)
    ∧ colToIdx "A " = (0, true) := by
  exact ⟨⟨by decide, by decide⟩, rfl⟩

/-- The decode loop fails as soon as any character outside `A`..`Z` is
present. -/
theorem colToIdxLoop_invalid :
    ∀ (l : List Char) (sum : Int),
      (∃ ch ∈ l, ¬ (65 ≤ ch.toNat ∧ ch.toNat ≤ 90)) →
      (colToIdxLoop l sum).2 = false := by
  intro l
  induction l with
  | nil => intro sum h; simp at h
  | cons c rest ih =>
    intro sum h
    obtain ⟨ch, hmem, hbad⟩ := h
    by_cases hc : 65 ≤ c.toNat ∧ c.toNat ≤ 90
    · have hne : ch ≠ c := by
        intro he
        exact hbad (he ▸ hc)
      have : ch ∈ rest := by
        rcases List.mem_cons.mp hmem with h1 | h1
        · exact absurd h1 hne
        · exact h1
      simp only [colToIdxLoop, if_pos hc]
      exact ih _ ⟨ch, this, hbad⟩
    · simp only [colToIdxLoop, if_neg hc]

/-- A non-letter is untouched by the ASCII upper-casing. -/
theorem goUpperChar_of_not_letter (c : Char) (h : isAsciiLetter c = false) :
    goUpperChar c = c := by
  simp only [isAsciiLetter, decide_eq_false_iff_not, not_or] at h
  simp only [goUpperChar, if_neg h.2]

/-- A non-letter is outside `A`..`Z`. -/
theorem not_upper_of_not_letter (c : Char) (h : isAsciiLetter c = false) :
    ¬ (65 ≤ c.toNat ∧ c.toNat ≤ 90) := by
  simp only [isAsciiLetter, decide_eq_false_iff_not, not_or] at h
  exact h.1

set_option maxRecDepth 40000 in
/-- Claim C7 amended: `idxToCol` produces `A`, `Z`, `AA` at 0, 25, 26;
over the whole range `A`..`ZZ` (indices 0..701, which covers the spec's
range) `colToIdx` is the exact left inverse of `idxToCol`, also on
lower-cased labels (case-insensitivity); and `colToIdx` returns invalid
for every input that still contains a non-alphabetic character after
surrounding whitespace is trimmed (whitespace-only padding around a valid
label is accepted, which is the one deviation from the claim as frozen). -/
theorem c7_column_utility :
    (idxToCol 0 = "A" ∧ idxToCol 25 = "Z" ∧ idxToCol 26 = "AA")
    ∧ (∀ i : Nat, i < 702 → colToIdx (idxToCol (i : Int)) = ((i : Int), true))
    ∧ (∀ i : Nat, i < 702 →
        colToIdx (goToLower (idxToCol (i : Int))) = ((i : Int), true))
    ∧ (∀ s : String,
        (∃ ch ∈ trimSpaceL s.data, isAsciiLetter ch = false) →
        (colToIdx s).2 = false) := by
  refine ⟨⟨rfl, rfl, rfl⟩, by decide, by decide, ?_⟩
  intro s h
  obtain ⟨ch, hmem, hbad⟩ := h
  have hmem2 : ch ∈ (trimSpaceL s.data).map goUpperChar := by
    have := List.mem_map_of_mem goUpperChar hmem
    rwa [goUpperChar_of_not_letter ch hbad] at this
  have hne : (trimSpaceL s.data).map goUpperChar ≠ [] := by
    intro he
    rw [he] at hmem2
    simp at hmem2
  simp only [colToIdx, if_neg hne]
  exact colToIdxLoop_invalid _ 0 ⟨ch, hmem2, not_upper_of_not_letter ch hbad⟩

/-- Witness for the amended C7 theorem: the inverse round-trip at index
27 (`AB`), also lower-cased, and rejection of `"A1"`. -/
theorem c7_column_utility_witness :
    colToIdx (idxToCol ((27 : Nat) : Int)) = (((27 : Nat) : Int), true)
    ∧ colToIdx (goToLower (idxToCol ((27 : Nat) : Int))) = (((27 : Nat) : Int), true)
    ∧ (colToIdx "A1").2 = false := by
  refine ⟨c7_column_utility.2.1 27 (by decide),
          c7_column_utility.2.2.1 27 (by decide),
          c7_column_utility.2.2.2 "A1" ⟨'1', by decide, by decide⟩⟩

/-! ## Claim C5 — layered timestamp coercion -/

/-- `s` is a non-empty all-digit numeral denoting `n` (the shape of a
spreadsheet serial like `"45123"`). -/
def isNatString (s : String) (n : Nat) : Prop :=
  s.data ≠ [] ∧ (∀ c ∈ s.data, c.isDigit = true) ∧ digitsToNat s.data = n

instance (s : String) (n : Nat) : Decidable (isNatString s n) := by
  unfold isNatString
  infer_instance

/-- An all-digit text cannot match the `YYYY-MM-DD` layout. -/
theorem parseDateLayoutL_digits (l : List Char)
    (h : ∀ c ∈ l, c.isDigit = true) : parseDateLayoutL l = none := by
  unfold parseDateLayoutL
  split
  · next => exact absurd (h '-' (by simp)) (by decide)
  · rfl

/-- An all-digit text cannot match the `DD/MM/YYYY` layout. -/
theorem parseDMYLayoutL_digits (l : List Char)
    (h : ∀ c ∈ l, c.isDigit = true) : parseDMYLayoutL l = none := by
  unfold parseDMYLayoutL
  split
  · next => exact absurd (h '/' (by simp)) (by decide)
  · rfl

/-- An all-digit text cannot match the date-time layout. -/
theorem parseDateTimeLayoutL_digits (l : List Char)
    (h : ∀ c ∈ l, c.isDigit = true) : parseDateTimeLayoutL l = none := by
  unfold parseDateTimeLayoutL
  split
  · next => exact absurd (h '-' (by simp)) (by decide)
  · rfl

/-- An all-digit text cannot match RFC 3339. -/
theorem parseRFC3339L_digits (l : List Char)
    (h : ∀ c ∈ l, c.isDigit = true) : parseRFC3339L l = none := by
  unfold parseRFC3339L
  split
  · next => exact absurd (h '-' (by simp)) (by decide)
  · rfl

/-- No layout matches an all-digit text. -/
theorem timeParse_none_of_digits (L s : String)
    (h : ∀ c ∈ s.data, c.isDigit = true) : timeParse L s = none := by
  unfold timeParse
  by_cases h1 : L = "2006-01-02"
  · rw [if_pos h1]; exact parseDateLayoutL_digits _ h
  · rw [if_neg h1]
    by_cases h2 : L = "02/01/2006"
    · rw [if_pos h2]; exact parseDMYLayoutL_digits _ h
    · rw [if_neg h2]
      by_cases h3 : L = "2006-01-02 15:04:05"
      · rw [if_pos h3]; exact parseDateTimeLayoutL_digits _ h
      · rw [if_neg h3]
        by_cases h4 : L = timeRFC3339
        · rw [if_pos h4]; exact parseRFC3339L_digits _ h
        · rw [if_neg h4]

/-- No layout list matches an all-digit text. -/
theorem tryLayouts_none_of_digits (Ls : List String) (s : String)
    (h : ∀ c ∈ s.data, c.isDigit = true) : tryLayouts Ls s = none := by
  induction Ls with
  | nil => rfl
  | cons L Ls ih =>
    simp only [tryLayouts, timeParse_none_of_digits L s h]
    exact ih

/-- `takeWhile` keeps a list all of whose elements satisfy the test. -/
theorem takeWhile_all_eq (p : Char → Bool) :
    ∀ l : List Char, (∀ c ∈ l, p c = true) → l.takeWhile p = l := by
  intro l
  induction l with
  | nil => intro _; rfl
  | cons c rest ih =>
    intro h
    simp only [List.takeWhile, h c (by simp)]
    simp only [List.cons.injEq, true_and]
    exact ih fun x hx => h x (by simp [hx])

/-- `dropWhile` drops a list all of whose elements satisfy the test. -/
theorem dropWhile_all_nil (p : Char → Bool) :
    ∀ l : List Char, (∀ c ∈ l, p c = true) → l.dropWhile p = [] := by
  intro l
  induction l with
  | nil => intro _; rfl
  | cons c rest ih =>
    intro h
    simp only [List.dropWhile, h c (by simp)]
    exact ih fun x hx => h x (by simp [hx])

/-- `strconv.ParseFloat` on an all-digit numeral yields its exact value. -/
theorem goParseFloat_of_isNatString (s : String) (n : Nat)
    (h : isNatString s n) : goParseFloat s = some ⟨(n : Int), 0⟩ := by
  obtain ⟨hne, hdig, hval⟩ := h
  unfold goParseFloat goParseFloatL
  cases hl : s.data with
  | nil => exact absurd hl hne
  | cons c cs =>
    have hc : c.isDigit = true := hdig c (by simp [hl])
    have hcp : c ≠ '+' := by
      intro he; rw [he] at hc; exact absurd hc (by decide)
    have hcm : c ≠ '-' := by
      intro he; rw [he] at hc; exact absurd hc (by decide)
    have hsign : splitSign (c :: cs) = (1, c :: cs) := by
      simp only [splitSign, if_neg hcp, if_neg hcm]
    rw [hsign]
    have hall : ∀ x ∈ c :: cs, x.isDigit = true := by
      intro x hx; exact hdig x (by simp [hl, hx])
    dsimp only
    rw [takeWhile_all_eq _ _ hall, dropWhile_all_nil _ _ hall]
    dsimp only
    rw [if_neg (by simp)]
    rw [hl] at hval
    rw [hval]
    simp

/-- The serial conversion of an integral serial value. -/
theorem serialToSec_nat (n : Nat) : serialToSec ⟨(n : Int), 0⟩ = (n : Int) * 86400 := by
  unfold serialToSec
  simp [Int.tdiv_one]

/-- The serial fallback of `parseAnyTimeOptimized` on an all-digit
numeral: every layout fails, `ParseFloat` succeeds, and the result is
`base + n * 86400` seconds (the base is the representation epoch, 0). -/
theorem parseAnyTime_serial (s : String) (n : Nat) (h : isNatString s n) :
    parseAnyTimeOptimized s "" = some ((n : Int) * 86400) := by
  unfold parseAnyTimeOptimized
  rw [if_neg (by simp)]
  rw [tryLayouts_none_of_digits commonLayouts s h.2.1,
      tryLayouts_none_of_digits defaultTimeLayouts s h.2.1,
      goParseFloat_of_isNatString s n h]
  dsimp only
  rw [serialToSec_nat]

/-- Claim C5: timestamp coercion tries, in order, the per-field override
layout, then the explicit layouts — whose collection across the two
source lists is exactly `YYYY-MM-DD`, `DD/MM/YYYY`,
`YYYY-MM-DD HH:MM:SS` and RFC 3339 — and finally the spreadsheet serial
interpretation `base + serialDays * 86400` seconds over the 1899-12-30
UTC epoch; a parse error arises only when all stages fail.  An integral
serial numeral `n` therefore decodes to `n * 86400` seconds past the
epoch, which is the same instant (hence the same calendar date) produced
by an explicit date string whenever the serial corresponds to that
date. -/
theorem c5_timestamp_layered_fallback :
    (∀ (s L : String) (t : Int), timeParse L s = some t →
        parseAnyTimeOptimized s L = some t)
    ∧ (∀ L : String, (L ∈ commonLayouts ∨ L ∈ defaultTimeLayouts) ↔
        L ∈ ["2006-01-02", "02/01/2006", "2006-01-02 15:04:05", timeRFC3339])
    ∧ (∀ (s L : String), parseAnyTimeOptimized s L = none →
        tryLayouts commonLayouts s = none
        ∧ tryLayouts defaultTimeLayouts s = none
        ∧ goParseFloat s = none)
    ∧ (∀ (s : String) (n : Nat), isNatString s n →
        parseAnyTimeOptimized s "" = some ((n : Int) * 86400))
    ∧ (∀ (s sd : String) (n : Nat) (t : Int), isNatString s n →
        tryLayouts commonLayouts sd = some t → t = (n : Int) * 86400 →
        parseAnyTimeOptimized s "" = parseAnyTimeOptimized sd "") := by
  refine ⟨?over, ?layouts, ?allfail, ?serial, ?corr⟩
  case over =>
    intro s L t h
    have hL : L ≠ "" := by
      intro he
      rw [he] at h
      rw [timeParse] at h
      simp [timeRFC3339] at h
    unfold parseAnyTimeOptimized
    rw [if_pos hL, h]
  case layouts =>
    intro L
    simp only [commonLayouts, defaultTimeLayouts, List.mem_cons,
      List.not_mem_nil, or_false]
    tauto
  case allfail =>
    intro s L h
    unfold parseAnyTimeOptimized at h
    cases ho : (if L ≠ "" then timeParse L s else none) with
    | some t => rw [ho] at h; simp at h
    | none =>
      rw [ho] at h
      cases hc : tryLayouts commonLayouts s with
      | some t => rw [hc] at h; simp at h
      | none =>
        rw [hc] at h
        cases hd : tryLayouts defaultTimeLayouts s with
        | some t => rw [hd] at h; simp at h
        | none =>
          rw [hd] at h
          cases hf : goParseFloat s with
          | some f => rw [hf] at h; simp at h
          | none => exact ⟨rfl, rfl, rfl⟩
  case serial =>
    exact fun s n h => parseAnyTime_serial s n h
  case corr =>
    intro s sd n t hs hsd ht
    have h2 : parseAnyTimeOptimized sd "" = some t := by
      unfold parseAnyTimeOptimized
      rw [if_neg (by simp), hsd]
    rw [parseAnyTime_serial s n hs, h2, ht]

/-- Witness for C5: the override layout `02/01/2006` decodes
`"16/07/2023"`; the serial `"45123"` decodes through the serial fallback
to `45123 * 86400` seconds; and it decodes to the same instant as the
explicit `"2023-07-16"`, the date this serial corresponds to. -/
theorem c5_timestamp_layered_fallback_witness :
    parseAnyTimeOptimized "16/07/2023" "02/01/2006" = some (45123 * 86400)
    ∧ parseAnyTimeOptimized "45123" "" = some (45123 * 86400)
    ∧ parseAnyTimeOptimized "45123" "" = parseAnyTimeOptimized "2023-07-16" "" := by
  refine ⟨c5_timestamp_layered_fallback.1 "16/07/2023" "02/01/2006" _ rfl,
          ?_, c5_timestamp_layered_fallback.2.2.2.2 "45123" "2023-07-16"
            45123 (45123 * 86400) (by decide) rfl rfl⟩
  exact c5_timestamp_layered_fallback.2.2.2.1 "45123" 45123 (by decide)
